import Mathlib

/-!
Shallow embedding of the RSVP reader core of `src/components/Reader.tsx`
(with the extracted pure copies in the test file).  JavaScript numbers are
modelled as exact rationals `ℚ` (indices as `ℤ`, word counts as `ℕ`);
`Math.floor` is `Int.floor`, `Math.min`/`Math.max` are `min`/`max`.
-/

namespace Spritz

/-- Embedding of `getORP` (Reader.tsx lines 40-47): fixation-point index from
the word's length banding. -/
def getORP (word : String) : ℕ :=
  let length := word.length
  if length ≤ 1 then 0
  else if length ≤ 5 then 1
  else if length ≤ 9 then 2
  else if length ≤ 13 then 3
  else 4

/-- Embedding of the candidate-size computation and breakpoint clamp of
`calculateFontSize` (Reader.tsx lines 49-68), i.e. the value the function holds
just before the long-word de-escalation step.  In `ℚ` division by zero yields
`0` (JS would yield an infinity for an empty word); theorems that depend on the
candidate therefore assume a nonempty word. -/
def clampedFontSize (word : String) (viewportWidth : ℚ) : ℚ :=
  let wordLength : ℚ := word.length
  let maxContainerWidth : ℚ := 672 - 64
  let availableWidth : ℚ := min (viewportWidth - 64) maxContainerWidth * 0.95
  let charWidthRatio : ℚ := 0.6
  let fontSize : ℚ := availableWidth / (wordLength * charWidthRatio)
  if viewportWidth < 640 then max (min fontSize 64) 24
  else if viewportWidth < 1024 then max (min fontSize 96) 32
  else max (min fontSize 128) 48

/-- Embedding of `calculateFontSize` (Reader.tsx lines 49-78): breakpoint clamp
followed by multiplicative long-word de-escalation and `Math.floor`. -/
def calculateFontSize (word : String) (viewportWidth : ℚ) : ℤ :=
  if viewportWidth = 0 then 96
  else
    let wordLength := word.length
    let fontSize : ℚ := clampedFontSize word viewportWidth
    let fontSize : ℚ := if wordLength > 15 then fontSize * 0.85 else fontSize
    let fontSize : ℚ := if wordLength > 20 then fontSize * 0.8 else fontSize
    ⌊fontSize⌋

/-- Embedding of the stored bookmark record (`epubDB.saveBookmark` payload,
Reader.tsx lines 113-118). -/
structure Bookmark where
  bookId : String
  cfi : String
  percentage : ℚ
  updatedAt : ℤ

/-- Embedding of the index reconstruction expression of `initReader`
(Reader.tsx line 93): `Math.floor((percentage / 100) * wordArray.length)`. -/
def restoredIndex (percentage : ℚ) (wordCount : ℕ) : ℤ :=
  ⌊percentage / 100 * (wordCount : ℚ)⌋

/-- Embedding of the `currentIndex` produced by `initReader` (Reader.tsx lines
91-95): the index starts at 0 and is overwritten by the reconstructed index
only when a bookmark exists with `percentage > 0`.  No clamping is applied. -/
def initIndex (bookmark : Option Bookmark) (wordCount : ℕ) : ℤ :=
  match bookmark with
  | some b => if b.percentage > 0 then restoredIndex b.percentage wordCount else 0
  | none => 0

/-- Embedding of the percentage written by the bookmark-saving effect
(Reader.tsx line 112): `(currentIndex / words.length) * 100`. -/
def savedPercentage (currentIndex : ℤ) (wordCount : ℕ) : ℚ :=
  (currentIndex : ℚ) / (wordCount : ℚ) * 100

/-- Milliseconds per word at a given rate (Reader.tsx line 136). -/
def msPerWord (wpm : ℚ) : ℚ := 60000 / wpm

/-- Ephemeral playback state of the Reader component: the pieces of React
state the playback clock reads and writes (`currentIndex`, `isPlaying`) plus
the monotonic reference point `lastUpdateRef`. -/
structure ReaderState where
  currentIndex : ℤ
  isPlaying : Bool
  lastUpdate : ℚ
deriving Repr, DecidableEq

/-- Embedding of one `animate` scheduling callback (Reader.tsx lines 139-156)
at a given monotonic `timestamp`: if the elapsed time since `lastUpdate`
reaches `msPerWord`, advance the index by one (or auto-stop at the last word)
and reset the reference point; otherwise leave the state untouched. -/
def animate (len : ℕ) (wpm : ℚ) (timestamp : ℚ) (s : ReaderState) : ReaderState :=
  let elapsed := timestamp - s.lastUpdate
  if msPerWord wpm ≤ elapsed then
    if (len : ℤ) - 1 ≤ s.currentIndex then
      { s with isPlaying := false, lastUpdate := timestamp }
    else
      { s with currentIndex := s.currentIndex + 1, lastUpdate := timestamp }
  else s

/-- A scheduling callback only exists while the clock is running: the effect of
Reader.tsx lines 122-166 requests animation frames only when `isPlaying` is
true, so a tick is `animate` guarded by `isPlaying`. -/
def tick (len : ℕ) (wpm : ℚ) (timestamp : ℚ) (s : ReaderState) : ReaderState :=
  if s.isPlaying then animate len wpm timestamp s else s

/-- User intents of the Reader, each mapped 1:1 to a handler in Reader.tsx,
plus a clock tick carrying its monotonic timestamp. -/
inductive Action where
  | toggle
  | arrowLeft
  | arrowRight
  | skipBack
  | skipForward
  | progressClick (f : ℚ)
  | tickAt (timestamp : ℚ)

/-- Embedding of the raw state update each handler performs:
`togglePlayPause` (line 211), the ArrowLeft/ArrowRight branches of
`handleKeyPress` (lines 173-180), `skipBack`/`skipForward` (lines 214-222),
`handleProgressClick` (lines 236-243), and a scheduled `animate` callback. -/
def applyAction (len : ℕ) (wpm : ℚ) (a : Action) (s : ReaderState) : ReaderState :=
  match a with
  | .toggle => { s with isPlaying := !s.isPlaying }
  | .arrowLeft => { s with currentIndex := max 0 (s.currentIndex - 1), isPlaying := false }
  | .arrowRight =>
      { s with currentIndex := min ((len : ℤ) - 1) (s.currentIndex + 1), isPlaying := false }
  | .skipBack => { s with currentIndex := max 0 (s.currentIndex - 10), isPlaying := false }
  | .skipForward =>
      { s with currentIndex := min ((len : ℤ) - 1) (s.currentIndex + 10), isPlaying := false }
  | .progressClick f =>
      { s with currentIndex := max 0 (min ((len : ℤ) - 1) ⌊f * (len : ℚ)⌋), isPlaying := false }
  | .tickAt ts => tick len wpm ts s

/-- Embedding of the guard at the top of the playback effect (Reader.tsx lines
131-134), which runs after every state change: when the clock is on but the
index is at or past the last word, playback is stopped before any animation
frame is scheduled. -/
def autoStop (len : ℕ) (s : ReaderState) : ReaderState :=
  if s.isPlaying ∧ (len : ℤ) - 1 ≤ s.currentIndex then { s with isPlaying := false } else s

/-- One settled transition of the Reader: a handler's update followed by the
playback effect's auto-stop guard. -/
def step (len : ℕ) (wpm : ℚ) (a : Action) (s : ReaderState) : ReaderState :=
  autoStop len (applyAction len wpm a s)

/-- A settled run of the Reader over a sequence of user actions and ticks. -/
def steps (len : ℕ) (wpm : ℚ) (acts : List Action) (s : ReaderState) : ReaderState :=
  acts.foldl (fun t a => step len wpm a t) s

/-! ### Helper lemmas -/

/-- A clamp of the shape `max (min x hi) lo` lands in `[lo, hi]` when the two
bounds are ordered. -/
lemma clamp_mem (x lo hi : ℚ) (h : lo ≤ hi) :
    lo ≤ max (min x hi) lo ∧ max (min x hi) lo ≤ hi :=
  ⟨le_max_right _ _, max_le (min_le_right _ _) h⟩

/-- The floor of a rational lying between two integer bounds lies between the
same bounds as an integer. -/
lemma floor_mem (x : ℚ) (lo hi : ℤ) (h0 : (lo : ℚ) ≤ x) (h1 : x ≤ (hi : ℚ)) :
    lo ≤ ⌊x⌋ ∧ ⌊x⌋ ≤ hi := by
  constructor
  · exact Int.le_floor.mpr h0
  · have := Int.floor_le_floor h1
    simpa using this

/-- For any viewport of width at least 736 (in particular at least 1024), the
available-width budget saturates at the content-column cap of 608 px. -/
lemma clampedFontSize_of_ge (w : String) (v : ℚ) (h : 1024 ≤ v) :
    clampedFontSize w v =
      max (min ((672 - 64) * 0.95 / ((w.length : ℚ) * 0.6)) 128) 48 := by
  simp only [clampedFontSize]
  rw [min_eq_right (by linarith : (672 : ℚ) - 64 ≤ v - 64)]
  rw [if_neg (by linarith), if_neg (by linarith)]

/-- A reconstructed index `⌊p / 100 * m⌋` lies in `[0, m - 1]` whenever the
stored percentage satisfies `0 ≤ p < 100` and the word count is positive. -/
lemma restoredIndex_range (p : ℚ) (m : ℕ) (hm : 1 ≤ m) (h0 : 0 ≤ p)
    (h1 : p < 100) :
    0 ≤ restoredIndex p m ∧ restoredIndex p m ≤ (m : ℤ) - 1 := by
  unfold restoredIndex
  have hm' : (0 : ℚ) < (m : ℚ) := by exact_mod_cast hm
  constructor
  · exact Int.le_floor.mpr (by positivity)
  · have hlt : p / 100 * (m : ℚ) < (m : ℚ) := by
      have h2 : p / 100 < 1 := (div_lt_one (by norm_num)).mpr h1
      calc p / 100 * (m : ℚ) < 1 * (m : ℚ) := mul_lt_mul_of_pos_right h2 hm'
        _ = (m : ℚ) := one_mul _
    have h4 : ⌊p / 100 * (m : ℚ)⌋ < (m : ℤ) :=
      Int.floor_lt.mpr (by push_cast; exact hlt)
    omega

/-! ### Claim theorems -/

/-- C7: `getORP` maps a word of length `L` to fixation index 0 for `L ≤ 1`
(including the empty string), 1 for `2 ≤ L ≤ 5`, 2 for `6 ≤ L ≤ 9`, 3 for
`10 ≤ L ≤ 13`, and 4 for `L ≥ 14`; the result always lies in `[0, 4]` and is
monotonically non-decreasing in word length. -/
theorem getORP_bands (w : String) :
    (w.length ≤ 1 → getORP w = 0) ∧
    (2 ≤ w.length → w.length ≤ 5 → getORP w = 1) ∧
    (6 ≤ w.length → w.length ≤ 9 → getORP w = 2) ∧
    (10 ≤ w.length → w.length ≤ 13 → getORP w = 3) ∧
    (14 ≤ w.length → getORP w = 4) ∧
    getORP w ≤ 4 ∧
    (∀ v : String, w.length ≤ v.length → getORP w ≤ getORP v) := by
  simp only [getORP]
  refine ⟨?_, ?_, ?_, ?_, ?_, ?_, ?_⟩
  · intro h; split_ifs
    all_goals omega
  · intro h1 h2; split_ifs
    all_goals omega
  · intro h1 h2; split_ifs
    all_goals omega
  · intro h1 h2; split_ifs
    all_goals omega
  · intro h; split_ifs
    all_goals omega
  · split_ifs
    all_goals omega
  · intro v hv; split_ifs
    all_goals omega

/-- C7 witness: concrete band values from the spec's examples. -/
theorem getORP_bands_witness :
    getORP "hello" = 1 ∧ getORP "technology" = 3 :=
  ⟨(getORP_bands "hello").2.1 (by decide) (by decide),
   (getORP_bands "technology").2.2.2.1 (by decide) (by decide)⟩

/-- C10: for a fixed word, `calculateFontSize` returns the same value at every
viewport width of at least 1024 px, because the available width saturates at
`min (viewportWidth - 64) (672 - 64) * 0.95 = 608 * 0.95` there. -/
theorem calculateFontSize_const_above_1024 (w : String) (v₁ v₂ : ℚ)
    (h₁ : 1024 ≤ v₁) (h₂ : 1024 ≤ v₂) :
    calculateFontSize w v₁ = calculateFontSize w v₂ := by
  unfold calculateFontSize
  rw [if_neg (by intro h; rw [h] at h₁; norm_num at h₁),
      if_neg (by intro h; rw [h] at h₂; norm_num at h₂),
      clampedFontSize_of_ge w v₁ h₁, clampedFontSize_of_ge w v₂ h₂]

/-- C10 witness: a 1024-px and a 1920-px viewport agree on a concrete word. -/
theorem calculateFontSize_const_above_1024_witness :
    calculateFontSize "hello" 1024 = calculateFontSize "hello" 1920 :=
  calculateFontSize_const_above_1024 "hello" 1024 1920 (by norm_num) (by norm_num)

/-- C3 counterexample: the code's mobile clamp floor is 24, not 32, so a
15-character word at a 320-px viewport yields 27, outside the claimed
`[32, 64]` range even though the word has at most 15 characters. -/
theorem calculateFontSize_range_cex :
    "fifteencharword".length = 15 ∧
    calculateFontSize "fifteencharword" 320 = 27 ∧
    ¬(32 ≤ calculateFontSize "fifteencharword" 320) := by
  have h : calculateFontSize "fifteencharword" 320 = 27 := by
    norm_num [calculateFontSize, clampedFontSize,
      show "fifteencharword".length = 15 from rfl]
  exact ⟨rfl, h, by rw [h]; norm_num⟩

/-- C3 amended: the breakpoint clamp ranges in the code are `[24, 64]` below
640 px, `[32, 96]` from 640 to 1024 px, and `[48, 128]` at 1024 px and above;
for every nonempty word of at most 15 characters the returned size lies within
the range of its breakpoint. -/
theorem calculateFontSize_breakpoint_range (w : String) (v : ℚ) (hv : v ≠ 0)
    (hw : 1 ≤ w.length) :
    (v < 640 → 24 ≤ clampedFontSize w v ∧ clampedFontSize w v ≤ 64) ∧
    (640 ≤ v → v < 1024 → 32 ≤ clampedFontSize w v ∧ clampedFontSize w v ≤ 96) ∧
    (1024 ≤ v → 48 ≤ clampedFontSize w v ∧ clampedFontSize w v ≤ 128) ∧
    (w.length ≤ 15 →
      (v < 640 → 24 ≤ calculateFontSize w v ∧ calculateFontSize w v ≤ 64) ∧
      (640 ≤ v → v < 1024 →
        32 ≤ calculateFontSize w v ∧ calculateFontSize w v ≤ 96) ∧
      (1024 ≤ v → 48 ≤ calculateFontSize w v ∧ calculateFontSize w v ≤ 128)) := by
  have h1 : v < 640 → 24 ≤ clampedFontSize w v ∧ clampedFontSize w v ≤ 64 := by
    intro h
    simp only [clampedFontSize]
    rw [if_pos h]
    exact clamp_mem _ 24 64 (by norm_num)
  have h2 : 640 ≤ v → v < 1024 →
      32 ≤ clampedFontSize w v ∧ clampedFontSize w v ≤ 96 := by
    intro ha hb
    simp only [clampedFontSize]
    rw [if_neg (by linarith), if_pos hb]
    exact clamp_mem _ 32 96 (by norm_num)
  have h3 : 1024 ≤ v → 48 ≤ clampedFontSize w v ∧ clampedFontSize w v ≤ 128 := by
    intro h
    simp only [clampedFontSize]
    rw [if_neg (by linarith), if_neg (by linarith)]
    exact clamp_mem _ 48 128 (by norm_num)
  have hcalc : w.length ≤ 15 → calculateFontSize w v = ⌊clampedFontSize w v⌋ := by
    intro h
    simp only [calculateFontSize]
    rw [if_neg hv, if_neg (show ¬20 < w.length by omega),
      if_neg (show ¬15 < w.length by omega)]
  refine ⟨h1, h2, h3, fun hle => ⟨?_, ?_, ?_⟩⟩
  · intro h
    rw [hcalc hle]
    exact floor_mem _ 24 64 (by exact_mod_cast (h1 h).1) (by exact_mod_cast (h1 h).2)
  · intro ha hb
    rw [hcalc hle]
    exact floor_mem _ 32 96 (by exact_mod_cast (h2 ha hb).1)
      (by exact_mod_cast (h2 ha hb).2)
  · intro h
    rw [hcalc hle]
    exact floor_mem _ 48 128 (by exact_mod_cast (h3 h).1)
      (by exact_mod_cast (h3 h).2)

/-- C3 amended witness: a 5-character word at a 320-px viewport lies in the
mobile range `[24, 64]`. -/
theorem calculateFontSize_breakpoint_range_witness :
    24 ≤ calculateFontSize "hello" 320 ∧ calculateFontSize "hello" 320 ≤ 64 :=
  ((calculateFontSize_breakpoint_range "hello" 320 (by norm_num)
    (by decide)).2.2.2 (by decide)).1 (by norm_num)

/-- C4 counterexample: the code's de-escalation factors are 0.85 and 0.8 (net
0.68), not 0.9 and 0.85 (net 0.765): a 21-character word at a 1920-px viewport
returns 32, whereas the floor of the clamped size times 0.765 would be 36; the
returned 32 also lies below the desktop breakpoint minimum 48. -/
theorem calculateFontSize_net_factor_cex :
    "twentyonecharacterwd1".length = 21 ∧
    calculateFontSize "twentyonecharacterwd1" 1920 = 32 ∧
    ⌊clampedFontSize "twentyonecharacterwd1" 1920 * 0.765⌋ = 36 ∧
    calculateFontSize "twentyonecharacterwd1" 1920 ≠
      ⌊clampedFontSize "twentyonecharacterwd1" 1920 * 0.765⌋ ∧
    calculateFontSize "twentyonecharacterwd1" 1920 < 48 := by
  have hcl : clampedFontSize "twentyonecharacterwd1" 1920 = 48 := by
    norm_num [clampedFontSize, show "twentyonecharacterwd1".length = 21 from rfl]
  have h : calculateFontSize "twentyonecharacterwd1" 1920 = 32 := by
    norm_num [calculateFontSize, clampedFontSize,
      show "twentyonecharacterwd1".length = 21 from rfl]
  have h765 : ⌊clampedFontSize "twentyonecharacterwd1" 1920 * 0.765⌋ = 36 := by
    rw [hcl]; norm_num
  exact ⟨rfl, h, h765, by rw [h, h765]; norm_num, by rw [h]; norm_num⟩

/-- C4 amended: after the breakpoint clamp the code multiplies by 0.85 when the
word length exceeds 15 and by a further 0.8 when it exceeds 20, compounding to
a net factor of 0.68, so for every word longer than 20 characters the returned
value is the floor of the clamped size times 0.68 (which may lie below the
breakpoint minimum, as the counterexample's concrete value 32 < 48 shows). -/
theorem calculateFontSize_long_word (w : String) (v : ℚ) (hv : v ≠ 0)
    (hw : 20 < w.length) :
    calculateFontSize w v = ⌊clampedFontSize w v * 0.85 * 0.8⌋ ∧
    calculateFontSize w v = ⌊clampedFontSize w v * 0.68⌋ := by
  have h : calculateFontSize w v = ⌊clampedFontSize w v * 0.85 * 0.8⌋ := by
    simp only [calculateFontSize]
    rw [if_neg hv, if_pos hw, if_pos (show 15 < w.length by omega)]
  refine ⟨h, ?_⟩
  rw [h, mul_assoc]
  norm_num

/-- C4 amended witness: the net factor holds at a concrete 21-character word
and a 1920-px viewport. -/
theorem calculateFontSize_long_word_witness :
    calculateFontSize "twentyonecharacterwd1" 1920 =
      ⌊clampedFontSize "twentyonecharacterwd1" 1920 * 0.68⌋ :=
  (calculateFontSize_long_word "twentyonecharacterwd1" 1920 (by norm_num)
    (by decide)).2

/-- C1: while the clock is running and the index is before the last word, a
scheduling callback at timestamp `ts` advances `currentIndex` by exactly 1 and
resets the reference point to `ts` when the elapsed time since the last advance
is at least `60000 / wpm` milliseconds, and leaves the state untouched
otherwise; no single callback ever advances the index by more than 1. -/
theorem tick_advances (len : ℕ) (wpm : ℚ) (ts : ℚ) (s : ReaderState)
    (hrun : s.isPlaying = true) (hidx : s.currentIndex < (len : ℤ) - 1) :
    (msPerWord wpm ≤ ts - s.lastUpdate →
      (tick len wpm ts s).currentIndex = s.currentIndex + 1 ∧
      (tick len wpm ts s).lastUpdate = ts) ∧
    (ts - s.lastUpdate < msPerWord wpm → tick len wpm ts s = s) ∧
    (∀ t : ReaderState, (tick len wpm ts t).currentIndex ≤ t.currentIndex + 1) := by
  refine ⟨?_, ?_, ?_⟩
  · intro h
    simp only [tick, animate, hrun, if_true]
    rw [if_pos h, if_neg (by omega)]
    exact ⟨rfl, rfl⟩
  · intro h
    simp only [tick, animate, hrun, if_true]
    rw [if_neg (by linarith)]
  · intro t
    simp only [tick, animate]
    split_ifs
    all_goals first
    | omega
    | (dsimp only; omega)

/-- C1 witness: at 300 wpm (200 ms per word) a callback 200 ms after the last
advance moves index 3 to 4 and resets the reference point. -/
theorem tick_advances_witness :
    (tick 10 300 200 ⟨3, true, 0⟩).currentIndex = 3 + 1 ∧
    (tick 10 300 200 ⟨3, true, 0⟩).lastUpdate = 200 :=
  (tick_advances 10 300 200 ⟨3, true, 0⟩ rfl (by norm_num)).1
    (by norm_num [msPerWord])

/-- A state in which playback is off passes through the auto-stop guard
unchanged. -/
lemma autoStop_not_playing (len : ℕ) (s : ReaderState) (h : s.isPlaying = false) :
    autoStop len s = s := by
  unfold autoStop
  rw [if_neg]
  simp [h]

/-- C5: every manual seek operation — arrow-key steps by 1, skip buttons by 10,
and a progress-bar click at fraction `f` — leaves `currentIndex` in
`[0, wordCount - 1]` (starting from an in-range index) and turns playback off;
in the interior the steps move by exactly ∓1, and a forward step at the last
word leaves the index unchanged. -/
theorem seek_ops (len : ℕ) (wpm : ℚ) (s : ReaderState) (hlen : 1 ≤ len)
    (h0 : 0 ≤ s.currentIndex) (h1 : s.currentIndex ≤ (len : ℤ) - 1) :
    (0 ≤ (step len wpm .arrowLeft s).currentIndex ∧
      (step len wpm .arrowLeft s).currentIndex ≤ (len : ℤ) - 1 ∧
      (step len wpm .arrowLeft s).isPlaying = false ∧
      (0 < s.currentIndex →
        (step len wpm .arrowLeft s).currentIndex = s.currentIndex - 1)) ∧
    (0 ≤ (step len wpm .arrowRight s).currentIndex ∧
      (step len wpm .arrowRight s).currentIndex ≤ (len : ℤ) - 1 ∧
      (step len wpm .arrowRight s).isPlaying = false ∧
      (s.currentIndex < (len : ℤ) - 1 →
        (step len wpm .arrowRight s).currentIndex = s.currentIndex + 1) ∧
      (s.currentIndex = (len : ℤ) - 1 →
        (step len wpm .arrowRight s).currentIndex = s.currentIndex)) ∧
    (0 ≤ (step len wpm .skipBack s).currentIndex ∧
      (step len wpm .skipBack s).currentIndex ≤ (len : ℤ) - 1 ∧
      (step len wpm .skipBack s).isPlaying = false) ∧
    (0 ≤ (step len wpm .skipForward s).currentIndex ∧
      (step len wpm .skipForward s).currentIndex ≤ (len : ℤ) - 1 ∧
      (step len wpm .skipForward s).isPlaying = false) ∧
    (∀ f : ℚ, 0 ≤ (step len wpm (.progressClick f) s).currentIndex ∧
      (step len wpm (.progressClick f) s).currentIndex ≤ (len : ℤ) - 1 ∧
      (step len wpm (.progressClick f) s).isPlaying = false) := by
  have hl : (1 : ℤ) ≤ (len : ℤ) := by exact_mod_cast hlen
  refine ⟨?_, ?_, ?_, ?_, ?_⟩
  · simp only [step, applyAction]
    rw [autoStop_not_playing _ _ rfl]
    dsimp only
    refine ⟨by omega, by omega, rfl, by omega⟩
  · simp only [step, applyAction]
    rw [autoStop_not_playing _ _ rfl]
    dsimp only
    refine ⟨by omega, by omega, rfl, by omega, by omega⟩
  · simp only [step, applyAction]
    rw [autoStop_not_playing _ _ rfl]
    dsimp only
    refine ⟨by omega, by omega, rfl⟩
  · simp only [step, applyAction]
    rw [autoStop_not_playing _ _ rfl]
    dsimp only
    refine ⟨by omega, by omega, rfl⟩
  · intro f
    simp only [step, applyAction]
    rw [autoStop_not_playing _ _ rfl]
    dsimp only
    refine ⟨by omega, by omega, rfl⟩

/-- C5 witness: a forward arrow step at the last word of a 3-word document
leaves the index at 2 and pauses. -/
theorem seek_ops_witness :
    (step 3 300 Action.arrowRight ⟨2, true, 0⟩).currentIndex = 2 ∧
    (step 3 300 Action.arrowRight ⟨2, true, 0⟩).isPlaying = false := by
  have h := (seek_ops 3 300 ⟨2, true, 0⟩ (by norm_num) (by norm_num)
    (by norm_num)).2.1
  exact ⟨h.2.2.2.2 (by norm_num), h.2.2.1⟩

/-- With zero words, the auto-stop guard always leaves playback off and never
touches the index (any index of at least -1 satisfies the stop condition). -/
lemma autoStop_zero (s : ReaderState) (hidx : -1 ≤ s.currentIndex) :
    (autoStop 0 s).isPlaying = false ∧
    (autoStop 0 s).currentIndex = s.currentIndex := by
  unfold autoStop
  split_ifs with h
  · exact ⟨rfl, rfl⟩
  · refine ⟨?_, rfl⟩
    by_contra hp
    have hp2 : s.isPlaying = true := by
      cases hb : s.isPlaying
      · exact absurd hb hp
      · rfl
    exact h ⟨hp2, by push_cast; omega⟩

/-- With zero words and playback off, every raw handler update keeps the index
at or above -1 (the value of `words.length - 1` in that state). -/
lemma applyAction_zero_idx (wpm : ℚ) (a : Action) (s : ReaderState)
    (hidx : -1 ≤ s.currentIndex) (hplay : s.isPlaying = false) :
    -1 ≤ (applyAction 0 wpm a s).currentIndex := by
  cases a
  all_goals simp only [applyAction, tick, hplay, Bool.false_eq_true, if_false]
  all_goals first
  | exact hidx
  | (push_cast; omega)

/-- With zero words, one settled step from a paused state ends paused with the
index still at or above -1. -/
lemma step_zero_inv (wpm : ℚ) (a : Action) (s : ReaderState)
    (hidx : -1 ≤ s.currentIndex) (hplay : s.isPlaying = false) :
    -1 ≤ (step 0 wpm a s).currentIndex ∧ (step 0 wpm a s).isPlaying = false := by
  have hidx2 : -1 ≤ (applyAction 0 wpm a s).currentIndex :=
    applyAction_zero_idx wpm a s hidx hplay
  have h := autoStop_zero (applyAction 0 wpm a s) hidx2
  simp only [step]
  exact ⟨by rw [h.2]; exact hidx2, h.1⟩

/-- With zero words, no settled run of the Reader from a paused state ever
turns playback on. -/
lemma steps_zero_inv (wpm : ℚ) (acts : List Action) (s : ReaderState)
    (hidx : -1 ≤ s.currentIndex) (hplay : s.isPlaying = false) :
    -1 ≤ (steps 0 wpm acts s).currentIndex ∧
    (steps 0 wpm acts s).isPlaying = false := by
  induction acts generalizing s with
  | nil => exact ⟨hidx, hplay⟩
  | cons a as ih =>
      have h := step_zero_inv wpm a s hidx hplay
      simpa [steps, List.foldl_cons] using ih (step 0 wpm a s) h.1 h.2

/-- C6: from a stopped state a play/toggle leaves the settled clock running
exactly when `currentIndex < wordCount - 1` (the toggle itself is
unconditional, but the playback effect stops again before scheduling any
frame); in particular with zero words no sequence of user actions and ticks
ever leaves the clock running. -/
theorem toggle_guard (len : ℕ) (wpm : ℚ) (s : ReaderState)
    (hstop : s.isPlaying = false) :
    ((step len wpm .toggle s).isPlaying = true ↔
      s.currentIndex < (len : ℤ) - 1) ∧
    (len = 0 → -1 ≤ s.currentIndex →
      ∀ acts : List Action, (steps 0 wpm acts s).isPlaying = false) := by
  constructor
  · simp only [step, applyAction, autoStop, hstop, Bool.not_false]
    split_ifs with h
    · constructor
      · intro hh; exact absurd hh (by simp)
      · intro hlt; exact absurd h.2 (by omega)
    · constructor
      · intro _; by_contra hc; exact h ⟨trivial, by omega⟩
      · intro _; rfl
  · intro hlen hidx acts
    subst hlen
    exact (steps_zero_inv wpm acts s hidx hstop).2

/-- C6 witness: toggling play in a 5-word document at index 0 starts the clock,
while with zero words a toggle leaves it stopped. -/
theorem toggle_guard_witness :
    (step 5 300 Action.toggle ⟨0, false, 0⟩).isPlaying = true ∧
    (steps 0 300 [Action.toggle] ⟨0, false, 0⟩).isPlaying = false := by
  refine ⟨(toggle_guard 5 300 ⟨0, false, 0⟩ rfl).1.mpr (by norm_num), ?_⟩
  exact (toggle_guard 0 300 ⟨0, false, 0⟩ rfl).2 rfl (by norm_num) [Action.toggle]

/-- C2 counterexample: `initReader` applies no clamp, so a stored percentage of
exactly 100 over a 4-word document reconstructs index 4, outside `[0, 3]`. -/
theorem initIndex_no_clamp_cex :
    initIndex (some ⟨"doc", "", 100, 0⟩) 4 = 4 ∧
    ¬(initIndex (some ⟨"doc", "", 100, 0⟩) 4 ≤ 4 - 1) := by
  have h : initIndex (some ⟨"doc", "", 100, 0⟩) 4 = 4 := by
    norm_num [initIndex, restoredIndex]
  exact ⟨h, by rw [h]; norm_num⟩

/-- C2 amended: on session start with a stored `percentage > 0` the controller
sets `currentIndex = ⌊percentage / 100 * wordCount⌋` with no clamping; for every
stored percentage in `[0, 100)` the reconstructed index lies in
`[0, wordCount - 1]`, but at exactly 100 it equals `wordCount`, out of range. -/
theorem initIndex_restore (b : Bookmark) (n : ℕ) (hn : 1 ≤ n) :
    (0 < b.percentage → initIndex (some b) n = restoredIndex b.percentage n) ∧
    (0 ≤ b.percentage → b.percentage < 100 →
      0 ≤ initIndex (some b) n ∧ initIndex (some b) n ≤ (n : ℤ) - 1) ∧
    (b.percentage = 100 → initIndex (some b) n = (n : ℤ)) := by
  refine ⟨?_, ?_, ?_⟩
  · intro h
    simp only [initIndex]
    rw [if_pos h]
  · intro h0 h1
    by_cases hp : 0 < b.percentage
    · simp only [initIndex]
      rw [if_pos hp]
      exact restoredIndex_range b.percentage n hn h0 h1
    · simp only [initIndex]
      rw [if_neg hp]
      have hni : (1 : ℤ) ≤ (n : ℤ) := by exact_mod_cast hn
      exact ⟨le_refl 0, by omega⟩
  · intro h
    simp only [initIndex]
    rw [if_pos (by rw [h]; norm_num), h]
    unfold restoredIndex
    norm_num

/-- C2 amended witness: a stored percentage of 50 over 4 words lands in range. -/
theorem initIndex_restore_witness :
    0 ≤ initIndex (some ⟨"doc", "", 50, 0⟩) 4 ∧
    initIndex (some ⟨"doc", "", 50, 0⟩) 4 ≤ 4 - 1 := by
  have h := (initIndex_restore ⟨"doc", "", 50, 0⟩ 4 (by norm_num)).2.1
    (by norm_num) (by norm_num)
  exact ⟨h.1, by exact_mod_cast h.2⟩

/-- C8: saving `percentage = index / wordCount * 100` and reconstructing
`⌊percentage / 100 * wordCount⌋` with the same word count recovers the original
index exactly, hence within the claimed ±1 tolerance. -/
theorem percentage_round_trip (n idx : ℕ) (hn : 1 ≤ n) (_hidx : idx ≤ n - 1) :
    restoredIndex (savedPercentage (idx : ℤ) n) n = (idx : ℤ) ∧
    |restoredIndex (savedPercentage (idx : ℤ) n) n - (idx : ℤ)| ≤ 1 := by
  have hn0 : ((n : ℚ)) ≠ 0 := by
    have : (0 : ℚ) < (n : ℚ) := by exact_mod_cast hn
    exact ne_of_gt this
  have key : savedPercentage (idx : ℤ) n / 100 * (n : ℚ) = (idx : ℚ) := by
    unfold savedPercentage
    push_cast
    field_simp
    ring
  have h1 : restoredIndex (savedPercentage (idx : ℤ) n) n = (idx : ℤ) := by
    unfold restoredIndex
    rw [key]
    exact Int.floor_natCast idx
  exact ⟨h1, by rw [h1]; simp⟩

/-- C8 witness: the spec's example, word count 200 and index 50 (percentage
25), reconstructs exactly to 50. -/
theorem percentage_round_trip_witness :
    restoredIndex (savedPercentage 50 200) 200 = 50 := by
  exact_mod_cast (percentage_round_trip 200 50 (by norm_num) (by norm_num)).1

/-- Every raw handler update keeps an in-range index in range when the document
is nonempty. -/
lemma applyAction_range (len : ℕ) (wpm : ℚ) (a : Action) (s : ReaderState)
    (hlen : 1 ≤ len) (h0 : 0 ≤ s.currentIndex)
    (h1 : s.currentIndex ≤ (len : ℤ) - 1) :
    0 ≤ (applyAction len wpm a s).currentIndex ∧
    (applyAction len wpm a s).currentIndex ≤ (len : ℤ) - 1 := by
  have hl : (1 : ℤ) ≤ (len : ℤ) := by exact_mod_cast hlen
  cases a
  all_goals simp only [applyAction, tick, animate]
  all_goals try split_ifs
  all_goals first
  | omega
  | (dsimp only; omega)

/-- The auto-stop guard never changes the index, so a settled step keeps an
in-range index in range when the document is nonempty. -/
lemma step_range (len : ℕ) (wpm : ℚ) (a : Action) (s : ReaderState)
    (hlen : 1 ≤ len) (h0 : 0 ≤ s.currentIndex)
    (h1 : s.currentIndex ≤ (len : ℤ) - 1) :
    0 ≤ (step len wpm a s).currentIndex ∧
    (step len wpm a s).currentIndex ≤ (len : ℤ) - 1 := by
  have h := applyAction_range len wpm a s hlen h0 h1
  simp only [step]
  unfold autoStop
  split_ifs
  · exact h
  · exact h

/-- A settled run keeps an in-range index in range when the document is
nonempty. -/
lemma steps_range (len : ℕ) (wpm : ℚ) (acts : List Action) (s : ReaderState)
    (hlen : 1 ≤ len) (h0 : 0 ≤ s.currentIndex)
    (h1 : s.currentIndex ≤ (len : ℤ) - 1) :
    0 ≤ (steps len wpm acts s).currentIndex ∧
    (steps len wpm acts s).currentIndex ≤ (len : ℤ) - 1 := by
  induction acts generalizing s with
  | nil => exact ⟨h0, h1⟩
  | cons a as ih =>
      have h := step_range len wpm a s hlen h0 h1
      simpa [steps, List.foldl_cons] using ih (step len wpm a s) h.1 h.2

/-- C9: starting from any in-range index (fresh session or one restored from a
self-written bookmark), every reachable state of a nonempty document writes a
bookmark percentage in `[0, 100)`, and an index reconstructed from such a
percentage against any positive word count lies in `[0, newWordCount - 1]`
even without clamping. -/
theorem saved_percentage_range (len : ℕ) (wpm : ℚ) (acts : List Action)
    (s : ReaderState) (hlen : 1 ≤ len) (h0 : 0 ≤ s.currentIndex)
    (h1 : s.currentIndex ≤ (len : ℤ) - 1) :
    0 ≤ savedPercentage (steps len wpm acts s).currentIndex len ∧
    savedPercentage (steps len wpm acts s).currentIndex len < 100 ∧
    ∀ m : ℕ, 1 ≤ m →
      0 ≤ restoredIndex
        (savedPercentage (steps len wpm acts s).currentIndex len) m ∧
      restoredIndex
        (savedPercentage (steps len wpm acts s).currentIndex len) m ≤
          (m : ℤ) - 1 := by
  obtain ⟨g0, g1⟩ := steps_range len wpm acts s hlen h0 h1
  have hlQ : (0 : ℚ) < (len : ℚ) := by exact_mod_cast hlen
  have hi0 : (0 : ℚ) ≤ ((steps len wpm acts s).currentIndex : ℚ) := by
    exact_mod_cast g0
  have hp0 : 0 ≤ savedPercentage (steps len wpm acts s).currentIndex len := by
    unfold savedPercentage
    exact mul_nonneg (div_nonneg hi0 (le_of_lt hlQ)) (by norm_num)
  have hp1 : savedPercentage (steps len wpm acts s).currentIndex len < 100 := by
    unfold savedPercentage
    have hiq : (((steps len wpm acts s).currentIndex : ℤ) : ℚ) < (len : ℚ) := by
      have : (steps len wpm acts s).currentIndex < (len : ℤ) := by omega
      exact_mod_cast this
    have hdiv : (((steps len wpm acts s).currentIndex : ℤ) : ℚ) / (len : ℚ) < 1 :=
      (div_lt_one hlQ).mpr hiq
    calc (((steps len wpm acts s).currentIndex : ℤ) : ℚ) / (len : ℚ) * 100
        < 1 * 100 := by
          exact mul_lt_mul_of_pos_right hdiv (by norm_num)
      _ = 100 := one_mul _
  exact ⟨hp0, hp1, fun m hm => restoredIndex_range _ m hm hp0 hp1⟩

/-- C9 witness: in a 2-word document, after one forward arrow step from index 0
the written percentage is in `[0, 100)` and reconstructs in range against a
7-word document. -/
theorem saved_percentage_range_witness :
    0 ≤ savedPercentage
      (steps 2 300 [Action.arrowRight] ⟨0, false, 0⟩).currentIndex 2 ∧
    savedPercentage
      (steps 2 300 [Action.arrowRight] ⟨0, false, 0⟩).currentIndex 2 < 100 ∧
    0 ≤ restoredIndex (savedPercentage
      (steps 2 300 [Action.arrowRight] ⟨0, false, 0⟩).currentIndex 2) 7 ∧
    restoredIndex (savedPercentage
      (steps 2 300 [Action.arrowRight] ⟨0, false, 0⟩).currentIndex 2) 7 ≤
        (7 : ℤ) - 1 := by
  have h := saved_percentage_range 2 300 [Action.arrowRight] ⟨0, false, 0⟩
    (by norm_num) (by norm_num) (by norm_num)
  refine ⟨h.1, h.2.1, (h.2.2 7 (by norm_num)).1, ?_⟩
  exact_mod_cast (h.2.2 7 (by norm_num)).2

end Spritz
